import Mathlib

/-
Verification of the session-aware JSON-RPC dispatch layer:
a shallow embedding of core/session_manager.py, core/custom_mcp_protocol.py
and core/mcp_handlers.py, followed by theorems about the embedded code.

Modelling conventions:
* Python timestamps (time.time()) are modelled as integers supplied
  explicitly to each operation; successive readings within one request are
  separate parameters so that real time may elapse between them.
* Python dicts that the code iterates or mutates are association lists in
  insertion order (a Python dict preserves insertion order and has unique
  keys); JSON values are the Json inductive below, with Json.null playing
  the role of Python None.
* uuid.uuid4() is modelled by an explicit freshId argument: the caller
  supplies the generated identifier.
-/

inductive Json where
  | null : Json
  | bool : Bool → Json
  | num : Int → Json
  | str : String → Json
  | arr : List Json → Json
  | obj : List (String × Json) → Json

/- Structural boolean equality of JSON values. -/
mutual

/-- Boolean equality of JSON values, structurally recursive so that it
evaluates by kernel reduction. -/
def Json.beq : Json → Json → Bool
  | Json.null, Json.null => true
  | Json.bool a, Json.bool b => a == b
  | Json.num a, Json.num b => a == b
  | Json.str a, Json.str b => a == b
  | Json.arr as, Json.arr bs => Json.beqList as bs
  | Json.obj as, Json.obj bs => Json.beqObj as bs
  | _, _ => false

def Json.beqList : List Json → List Json → Bool
  | [], [] => true
  | a :: as, b :: bs => Json.beq a b && Json.beqList as bs
  | _, _ => false

def Json.beqObj : List (String × Json) → List (String × Json) → Bool
  | [], [] => true
  | (k1, v1) :: as, (k2, v2) :: bs =>
      k1 == k2 && Json.beq v1 v2 && Json.beqObj as bs
  | _, _ => false

end

mutual

theorem Json.beq_iff : ∀ (a b : Json), Json.beq a b = true ↔ a = b
  | Json.null, Json.null => by simp [Json.beq]
  | Json.bool a, Json.bool b => by simp [Json.beq]
  | Json.num a, Json.num b => by simp [Json.beq]
  | Json.str a, Json.str b => by simp [Json.beq]
  | Json.arr as, Json.arr bs => by
      simp [Json.beq, Json.beqList_iff as bs]
  | Json.obj as, Json.obj bs => by
      simp [Json.beq, Json.beqObj_iff as bs]
  | Json.null, Json.bool _ | Json.null, Json.num _ | Json.null, Json.str _
  | Json.null, Json.arr _ | Json.null, Json.obj _
  | Json.bool _, Json.null | Json.bool _, Json.num _ | Json.bool _, Json.str _
  | Json.bool _, Json.arr _ | Json.bool _, Json.obj _
  | Json.num _, Json.null | Json.num _, Json.bool _ | Json.num _, Json.str _
  | Json.num _, Json.arr _ | Json.num _, Json.obj _
  | Json.str _, Json.null | Json.str _, Json.bool _ | Json.str _, Json.num _
  | Json.str _, Json.arr _ | Json.str _, Json.obj _
  | Json.arr _, Json.null | Json.arr _, Json.bool _ | Json.arr _, Json.num _
  | Json.arr _, Json.str _ | Json.arr _, Json.obj _
  | Json.obj _, Json.null | Json.obj _, Json.bool _ | Json.obj _, Json.num _
  | Json.obj _, Json.str _ | Json.obj _, Json.arr _ => by simp [Json.beq]

theorem Json.beqList_iff : ∀ (as bs : List Json), Json.beqList as bs = true ↔ as = bs
  | [], [] => by simp [Json.beqList]
  | [], _ :: _ => by simp [Json.beqList]
  | _ :: _, [] => by simp [Json.beqList]
  | a :: as, b :: bs => by
      simp [Json.beqList, Json.beq_iff a b, Json.beqList_iff as bs]

theorem Json.beqObj_iff : ∀ (as bs : List (String × Json)),
    Json.beqObj as bs = true ↔ as = bs
  | [], [] => by simp [Json.beqObj]
  | [], _ :: _ => by simp [Json.beqObj]
  | _ :: _, [] => by simp [Json.beqObj]
  | (k1, v1) :: as, (k2, v2) :: bs => by
      simp [Json.beqObj, Json.beq_iff v1 v2, Json.beqObj_iff as bs, and_assoc]

end

instance : DecidableEq Json :=
  fun a b => decidable_of_iff (Json.beq a b = true) (Json.beq_iff a b)

/-- Lookup of the first binding of a key in an association list
(the Python dict access d[k] / d.get(k)). -/
def alook {α : Type} (k : String) : List (String × α) → Option α
  | [] => none
  | (k2, v) :: l => if k2 = k then some v else alook k l

/-- Update of an association list at a key: replace the first binding in
place, or append a new binding (the Python dict assignment d[k] = v). -/
def aupd {α : Type} (k : String) (v : α) : List (String × α) → List (String × α)
  | [] => [(k, v)]
  | (k2, v2) :: l => if k2 = k then (k, v) :: l else (k2, v2) :: aupd k v l

/-- Removal of the first binding of a key (the Python statement del d[k]). -/
def aerase {α : Type} (k : String) : List (String × α) → List (String × α)
  | [] => []
  | (k2, v2) :: l => if k2 = k then l else (k2, v2) :: aerase k l

/-- The keys of an association list, in order. -/
def akeys {α : Type} (l : List (String × α)) : List String := l.map Prod.fst

/-- Python d.get(k): the stored value, Json.null (None) when the key is
absent or the receiver is not a dict. -/
def jget (j : Json) (k : String) : Json :=
  match j with
  | Json.obj kvs => (alook k kvs).getD Json.null
  | _ => Json.null

/-- Python d.get(k, dflt): the stored value when the key is present, the
given default otherwise. -/
def jgetD (j : Json) (k : String) (dflt : Json) : Json :=
  match j with
  | Json.obj kvs => (alook k kvs).getD dflt
  | _ => dflt

/-- Python truthiness of a JSON value (None, False, 0, empty string and
empty containers are falsy). -/
def jsonTruthy : Json → Bool
  | Json.null => false
  | Json.bool b => b
  | Json.num n => n != 0
  | Json.str s => s != ""
  | Json.arr l => !l.isEmpty
  | Json.obj l => !l.isEmpty

/-- Whether a JSON object carries a key (false for non-objects). -/
def hasKey (j : Json) (k : String) : Bool :=
  match j with
  | Json.obj kvs => (alook k kvs).isSome
  | _ => false

/-
core/session_manager.py
-/

/-- MCPSession dataclass of core/session_manager.py. -/
structure MCPSession where
  session_id : String
  created_at : Int
  last_accessed : Int
  user_email : Option String
  initialized : Bool
  client_info : Json
  capabilities : Json
deriving DecidableEq

/-- MCPSession.touch: update the last accessed time. -/
def MCPSession.touch (s : MCPSession) (now : Int) : MCPSession :=
  { s with last_accessed := now }

/-- MCPSession.is_expired: (time.time() - last_accessed) > timeout_seconds. -/
def MCPSession.is_expired (s : MCPSession) (now : Int) (timeout_seconds : Int) : Bool :=
  decide (now - s.last_accessed > timeout_seconds)

/-- SessionManager of core/session_manager.py: the sessions dict and the
configured timeout. -/
structure SessionManager where
  sessions : List (String × MCPSession)
  session_timeout : Int
deriving DecidableEq

/-- SessionManager.create_session.  A falsy id (absent, or the empty
string) is replaced by a generated one (uuid.uuid4(), modelled by
freshId). -/
def SessionManager.create_session (m : SessionManager) (sid? : Option String)
    (freshId : String) (now : Int) : MCPSession × SessionManager :=
  let sid := match sid? with
    | some s => if s = "" then freshId else s
    | none => freshId
  let s : MCPSession :=
    { session_id := sid, created_at := now, last_accessed := now,
      user_email := none, initialized := false,
      client_info := Json.obj [], capabilities := Json.obj [] }
  (s, { m with sessions := aupd sid s m.sessions })

/-- SessionManager.get_session: lazy expiry (an expired record is deleted
and reported as absent), a live record is touched in place and returned. -/
def SessionManager.get_session (m : SessionManager) (sid : String) (now : Int) :
    Option MCPSession × SessionManager :=
  match alook sid m.sessions with
  | none => (none, m)
  | some s =>
    if s.is_expired now m.session_timeout then
      (none, { m with sessions := aerase sid m.sessions })
    else
      (some (s.touch now), { m with sessions := aupd sid (s.touch now) m.sessions })

/-- SessionManager.get_or_create_session.  Python tests the id for
truthiness, so the empty string behaves exactly like an absent id. -/
def SessionManager.get_or_create_session (m : SessionManager) (sid? : Option String)
    (freshId : String) (now : Int) : MCPSession × SessionManager :=
  match sid? with
  | some sid =>
    if sid = "" then m.create_session sid? freshId now
    else
      match m.get_session sid now with
      | (some s, m2) => (s, m2)
      | (none, m2) => m2.create_session sid? freshId now
  | none => m.create_session none freshId now

/-- SessionManager.initialize_session: look the session up (touching it),
fail with false when it is absent or expired, otherwise store the payloads,
set initialized and touch again. -/
def SessionManager.initialize_session (m : SessionManager) (sid : String)
    (client_info capabilities : Json) (now : Int) : Bool × SessionManager :=
  match m.get_session sid now with
  | (none, m2) => (false, m2)
  | (some s, m2) =>
    let s2 := { s with client_info := client_info, capabilities := capabilities,
                       initialized := true, last_accessed := now }
    (true, { m2 with sessions := aupd sid s2 m2.sessions })

/-- SessionManager.is_session_initialized. -/
def SessionManager.is_session_initialized (m : SessionManager) (sid : String)
    (now : Int) : Bool × SessionManager :=
  match m.get_session sid now with
  | (some s, m2) => (s.initialized, m2)
  | (none, m2) => (false, m2)

/-- SessionManager.cleanup_expired_sessions: remove every expired record. -/
def SessionManager.cleanup_expired_sessions (m : SessionManager) (now : Int) :
    SessionManager :=
  { m with sessions := m.sessions.filter (fun kv => !(kv.2.is_expired now m.session_timeout)) }

/-- SessionManager.get_session_count. -/
def SessionManager.get_session_count (m : SessionManager) : Nat :=
  m.sessions.length

/-- The session-store operations, for claims quantifying over every
operation of the store.  count covers get_session_count (a pure read);
info covers the state effect of get_session_info (a get_session). -/
inductive StoreOp where
  | create : Option String → String → StoreOp
  | get : String → StoreOp
  | getOrCreate : Option String → String → StoreOp
  | initSession : String → Json → Json → StoreOp
  | sweep : StoreOp
  | count : StoreOp
  | isInit : String → StoreOp
  | info : String → StoreOp

/-- The state effect of one store operation, at one reading of the clock. -/
def StoreOp.apply (op : StoreOp) (m : SessionManager) (now : Int) : SessionManager :=
  match op with
  | .create s f => (m.create_session s f now).2
  | .get sid => (m.get_session sid now).2
  | .getOrCreate s f => (m.get_or_create_session s f now).2
  | .initSession sid ci caps => (m.initialize_session sid ci caps now).2
  | .sweep => m.cleanup_expired_sessions now
  | .count => m
  | .isInit sid => (m.is_session_initialized sid now).2
  | .info sid => (m.get_session sid now).2

/-
core/custom_mcp_protocol.py and core/mcp_handlers.py: tool registry,
schema inference, argument binding, dispatch.
-/

/-- A declared parameter annotation as the schema inference inspects it:
the four specially recognised classes, or any other annotation together
with its textual rendering str(annotation). -/
inductive PyAnn where
  | pyStr : PyAnn
  | pyInt : PyAnn
  | pyBool : PyAnn
  | pyList : PyAnn
  | other : String → PyAnn
deriving DecidableEq

/-- One declared parameter of a tool callable: its name, its annotation
(none models inspect.Parameter.empty) and its default value (none models
inspect.Parameter.empty). -/
structure Param where
  name : String
  annot : Option PyAnn
  default : Option Json
deriving DecidableEq

/-- The JSON-Schema type string inferred for an annotation: the initial
value "string" is overwritten for the recognised classes, and for any
other annotation whose rendering starts with "List". -/
def paramType : Option PyAnn → String
  | none => "string"
  | some PyAnn.pyStr => "string"
  | some PyAnn.pyInt => "integer"
  | some PyAnn.pyBool => "boolean"
  | some PyAnn.pyList => "array"
  | some (PyAnn.other r) => if r.startsWith "List" then "array" else "string"

/-- One property entry of an inferred input schema; optional fields model
optional dict keys. -/
structure ParamInfo where
  type : String
  description : Option String
  default : Option Json
deriving DecidableEq

/-- Schema inference of CustomMCPProtocol.get_tools_list: walk the
declared parameters in order, skip the two reserved injected names,
record a type and a description for each remaining parameter and mark it
required exactly when it has no default.  Defaults are not copied into
the schema. -/
def inferSchema : List Param → List (String × ParamInfo) × List String
  | [] => ([], [])
  | p :: rest =>
    let tail := inferSchema rest
    if p.name = "service" ∨ p.name = "mcp_session_id" then tail
    else
      let pinfo : ParamInfo :=
        { type := paramType p.annot,
          description := some ("Parameter: " ++ p.name),
          default := none }
      ((p.name, pinfo) :: tail.1,
       if p.default.isNone then p.name :: tail.2 else tail.2)

/-- Schema inference of get_registered_tools in core/mcp_handlers.py:
only the service parameter is skipped, no description is emitted, and a
present default value is copied into the schema entry. -/
def handlersInferSchema : List Param → List (String × ParamInfo) × List String
  | [] => ([], [])
  | p :: rest =>
    let tail := handlersInferSchema rest
    if p.name = "service" then tail
    else
      let base : ParamInfo :=
        { type := paramType p.annot, description := none, default := none }
      match p.default with
      | none => ((p.name, base) :: tail.1, p.name :: tail.2)
      | some d => ((p.name, { base with default := some d }) :: tail.1, tail.2)

/-- The outcome of invoking a Python callable: a returned value, a raised
ValueError, or any other raised exception. -/
inductive PyResult where
  | ok : Json → PyResult
  | valueError : String → PyResult
  | exc : String → PyResult
deriving DecidableEq

/-- A registered tool: its declared signature, its docstring, and the
outcome of invoking its callable on a bound keyword-argument map. -/
structure Tool where
  params : List Param
  doc : Option String
  behavior : List (String × Json) → PyResult

/-- Python str() of a JSON value, as used for the text content block and
for interpolated messages.  Renderings of containers are abstracted; no
claim depends on them. -/
def pyStr : Json → String
  | Json.null => "None"
  | Json.bool true => "True"
  | Json.bool false => "False"
  | Json.num n => toString n
  | Json.str s => s
  | Json.arr _ => "<list>"
  | Json.obj _ => "<dict>"

/-- The session id value passed into a tool call (Python None when no
session id is in scope). -/
def sessionJson : Option String → Json
  | some s => Json.str s
  | none => Json.null

/-- Argument binding of CustomMCPProtocol.call_tool: for each declared
parameter in order, the session-identifier slot receives the session id
from the dispatcher; otherwise a client-supplied entry of the same name
is taken when present, else the declared default when present, else the
parameter is omitted. -/
def build_call_args (params : List Param) (arguments : List (String × Json))
    (session_id : Option String) : List (String × Json) :=
  match params with
  | [] => []
  | p :: rest =>
    let tail := build_call_args rest arguments session_id
    if p.name = "mcp_session_id" then (p.name, sessionJson session_id) :: tail
    else
      match alook p.name arguments with
      | some v => (p.name, v) :: tail
      | none =>
        match p.default with
        | some d => (p.name, d) :: tail
        | none => tail

/-- CustomMCPProtocol.call_tool: resolve the name in the registry,
raising ValueError when it does not resolve (a non-string name never
resolves); bind the arguments and invoke the callable, whose own raised
exceptions propagate unchanged.  The repr quotes the source puts around
the name in the message are elided. -/
def call_tool (registry : List (String × Tool)) (tool_name : Json)
    (arguments : List (String × Json)) (session_id : Option String) : PyResult :=
  let entry := match tool_name with
    | Json.str n => alook n registry
    | _ => none
  match entry with
  | none => PyResult.valueError ("Tool " ++ pyStr tool_name ++ " not found")
  | some t => t.behavior (build_call_args t.params arguments session_id)

/-- The description line of a tool: its docstring when truthy, else a
fallback, then stripped and cut at the first line. -/
def toolDescription (tool_name : String) (doc : Option String) : String :=
  let d := match doc with
    | some s => if s = "" then "Tool: " ++ tool_name else s
    | none => "Tool: " ++ tool_name
  ((d.trim).splitOn (String.singleton (Char.ofNat 10))).headD ""

/-- A schema property entry as the JSON value placed in the response
(optional fields become optional keys, in the insertion order of the
source). -/
def ParamInfo.toJson (pinfo : ParamInfo) : Json :=
  Json.obj ([("type", Json.str pinfo.type)]
    ++ (match pinfo.description with
        | some d => [("description", Json.str d)]
        | none => [])
    ++ (match pinfo.default with
        | some d => [("default", d)]
        | none => []))

/-- CustomMCPProtocol.get_tools_list: one entry per registered tool, in
registration order.  The per-tool fallback for a failing introspection is
not modelled: schema construction over the embedded signatures is total. -/
def get_tools_list (registry : List (String × Tool)) : Json :=
  Json.arr (registry.map (fun nt =>
    Json.obj [("name", Json.str nt.1),
              ("description", Json.str (toolDescription nt.1 nt.2.doc)),
              ("inputSchema", Json.obj
                 [("type", Json.str "object"),
                  ("properties", Json.obj
                     (((inferSchema nt.2.params).1).map (fun kv => (kv.1, kv.2.toJson)))),
                  ("required", Json.arr
                     (((inferSchema nt.2.params).2).map Json.str))])]))

/-- CustomMCPProtocol.create_mcp_response: a JSON-RPC envelope with the
given id and exactly one of result or error. -/
def create_mcp_response (request_id : Json) (result : Option Json)
    (error : Option Json) : Json :=
  match error with
  | some e => Json.obj [("jsonrpc", Json.str "2.0"), ("id", request_id), ("error", e)]
  | none => Json.obj [("jsonrpc", Json.str "2.0"), ("id", request_id),
                      ("result", result.getD Json.null)]

/-- CustomMCPProtocol.create_error_response. -/
def create_error_response (request_id : Json) (code : Int) (message : String)
    (data : Option Json) : Json :=
  let e := match data with
    | some d => Json.obj [("code", Json.num code), ("message", Json.str message), ("data", d)]
    | none => Json.obj [("code", Json.num code), ("message", Json.str message)]
  create_mcp_response request_id none (some e)

/-- The request as the dispatcher receives it from the transport: the
session header, and the body as parsed (empty, unparsable, or a JSON
value). -/
inductive ReqBody where
  | empty : ReqBody
  | malformed : ReqBody
  | json : Json → ReqBody
deriving DecidableEq

structure HttpRequest where
  headerSessionId : Option String
  body : ReqBody
deriving DecidableEq

/-- The response the dispatcher hands back to the transport: HTTP status,
JSON-RPC envelope, and the session header set on initialize responses. -/
structure HttpResponse where
  status : Nat
  body : Json
  sessionHeader : Option String
deriving DecidableEq

/-- The fixed initialize result of handle_mcp_request. -/
def initializeResult : Json :=
  Json.obj [("protocolVersion", Json.str "2024-11-05"),
            ("capabilities", Json.obj
               [("tools", Json.obj [("listChanged", Json.bool false)]),
                ("resources", Json.obj [("subscribe", Json.bool false),
                                        ("listChanged", Json.bool false)]),
                ("prompts", Json.obj [("listChanged", Json.bool false)]),
                ("experimental", Json.obj [])]),
            ("serverInfo", Json.obj [("name", Json.str "google_workspace"),
                                     ("version", Json.str "1.12.0")])]

/-- handle_mcp_request of core/custom_mcp_protocol.py.

The clock is read several times while one request is handled; t1 is the
reading used for transport extraction and session resolution, t2 the (no
earlier) reading used for initialize_session.  freshId models
uuid.uuid4().  Calling .get on a parsed body or params value that is not
a dict raises AttributeError in the source, which its top-level except
converts to a -32603 envelope with HTTP status 500; the model returns
that envelope directly at the corresponding points.  A client argument
map is modelled as a JSON object, the protocol shape. -/
def handle_mcp_request (registry : List (String × Tool)) (m : SessionManager)
    (req : HttpRequest) (freshId : String) (t1 t2 : Int) :
    HttpResponse × SessionManager :=
  let headerGiven := match req.headerSessionId with
    | some h => h != ""
    | none => false
  let sid := if headerGiven then req.headerSessionId.getD ""
             else (m.get_or_create_session none freshId t1).1.session_id
  let m1 := if headerGiven then m else (m.get_or_create_session none freshId t1).2
  match req.body with
  | ReqBody.empty =>
    ({ status := 400,
       body := create_error_response Json.null (-32700) "Parse error: Empty request" none,
       sessionHeader := none }, m1)
  | ReqBody.malformed =>
    ({ status := 400,
       body := create_error_response Json.null (-32700) "Parse error: invalid JSON" none,
       sessionHeader := none }, m1)
  | ReqBody.json (Json.obj kvs) =>
    if jget (Json.obj kvs) "jsonrpc" ≠ Json.str "2.0" then
      ({ status := 400,
         body := create_error_response (jget (Json.obj kvs) "id") (-32600)
           "Invalid Request: Not a valid JSON-RPC 2.0 request" none,
         sessionHeader := none }, m1)
    else
      let request_id := jget (Json.obj kvs) "id"
      let method := jget (Json.obj kvs) "method"
      let params := jgetD (Json.obj kvs) "params" (Json.obj [])
      if !(jsonTruthy method) then
        ({ status := 400,
           body := create_error_response request_id (-32600) "Invalid Request: Missing method" none,
           sessionHeader := none }, m1)
      else if method = Json.str "initialize" then
        let m2 := (m1.get_or_create_session (some sid) freshId t1).2
        match params with
        | Json.obj pkvs =>
          let client_info := jgetD (Json.obj pkvs) "clientInfo" (Json.obj [])
          let capabilities := jgetD (Json.obj pkvs) "capabilities" (Json.obj [])
          -- the boolean result of initialize_session is discarded by the source
          let m3 := (m2.initialize_session sid client_info capabilities t2).2
          ({ status := 200,
             body := create_mcp_response request_id (some initializeResult) none,
             sessionHeader := some sid }, m3)
        | _ =>
          ({ status := 500,
             body := create_error_response Json.null (-32603) "Internal error: AttributeError" none,
             sessionHeader := none }, m2)
      else if method = Json.str "tools/list" then
        ({ status := 200,
           body := create_mcp_response request_id
             (some (Json.obj [("tools", get_tools_list registry)])) none,
           sessionHeader := none }, m1)
      else if method = Json.str "resources/list" then
        ({ status := 200,
           body := create_mcp_response request_id
             (some (Json.obj [("resources", Json.arr [])])) none,
           sessionHeader := none }, m1)
      else if method = Json.str "prompts/list" then
        ({ status := 200,
           body := create_mcp_response request_id
             (some (Json.obj [("prompts", Json.arr [])])) none,
           sessionHeader := none }, m1)
      else if method = Json.str "tools/call" then
        match params with
        | Json.obj pkvs =>
          let tool_name := jget (Json.obj pkvs) "name"
          let arguments := match jgetD (Json.obj pkvs) "arguments" (Json.obj []) with
            | Json.obj a => a
            | _ => []
          if !(jsonTruthy tool_name) then
            ({ status := 400,
               body := create_error_response request_id (-32602) "Invalid params: Missing tool name" none,
               sessionHeader := none }, m1)
          else
            match call_tool registry tool_name arguments (some sid) with
            | PyResult.ok v =>
              ({ status := 200,
                 body := create_mcp_response request_id
                   (some (Json.obj [("content", Json.arr
                      [Json.obj [("type", Json.str "text"),
                                 ("text", Json.str (pyStr v))]])])) none,
                 sessionHeader := none }, m1)
            | PyResult.valueError msg =>
              ({ status := 404,
                 body := create_error_response request_id (-32601) ("Method not found: " ++ msg) none,
                 sessionHeader := none }, m1)
            | PyResult.exc msg =>
              ({ status := 500,
                 body := create_error_response request_id (-32603) ("Internal error: " ++ msg) none,
                 sessionHeader := none }, m1)
        | _ =>
          ({ status := 500,
             body := create_error_response Json.null (-32603) "Internal error: AttributeError" none,
             sessionHeader := none }, m1)
      else
        ({ status := 404,
           body := create_error_response request_id (-32601) ("Method not found: " ++ pyStr method) none,
           sessionHeader := none }, m1)
  | ReqBody.json _ =>
    -- the body parsed to something that is not a dict: building the -32600
    -- envelope calls .get on it and raises AttributeError, which the
    -- top-level except converts to -32603 with HTTP status 500
    ({ status := 500,
       body := create_error_response Json.null (-32603) "Internal error: AttributeError" none,
       sessionHeader := none }, m1)

/-
Association-list lemmas.
-/

theorem akeys_cons {α : Type} (k : String) (v : α) (l : List (String × α)) :
    akeys ((k, v) :: l) = k :: akeys l := rfl

theorem mem_akeys_of_mem {α : Type} {k : String} {v : α} {l : List (String × α)}
    (h : (k, v) ∈ l) : k ∈ akeys l :=
  List.mem_map_of_mem Prod.fst h

theorem alook_aupd {α : Type} (k k2 : String) (v : α) (l : List (String × α)) :
    alook k2 (aupd k v l) = if k2 = k then some v else alook k2 l := by
  induction l with
  | nil =>
    by_cases h : k2 = k
    · subst h
      simp [alook, aupd]
    · simp [alook, aupd, h, Ne.symm h]
  | cons hd t ih =>
    obtain ⟨k3, v3⟩ := hd
    by_cases h3 : k3 = k
    · subst h3
      by_cases h2 : k2 = k3
      · subst h2
        simp [aupd, alook]
      · simp [aupd, alook, h2, Ne.symm h2]
    · by_cases h2 : k3 = k2
      · subst h2
        simp [aupd, alook, h3]
      · simp [aupd, alook, h3, h2, ih]

theorem mem_of_alook {α : Type} {k : String} {v : α} {l : List (String × α)}
    (h : alook k l = some v) : (k, v) ∈ l := by
  induction l with
  | nil => simp [alook] at h
  | cons hd t ih =>
    obtain ⟨k2, v2⟩ := hd
    by_cases h2 : k2 = k
    · subst h2
      simp [alook] at h
      simp [h]
    · simp [alook, h2] at h
      simp [ih h]

theorem alook_none_of_not_mem {α : Type} {k : String} {l : List (String × α)}
    (h : k ∉ akeys l) : alook k l = none := by
  induction l with
  | nil => simp [alook]
  | cons hd t ih =>
    obtain ⟨k2, v2⟩ := hd
    rw [akeys_cons] at h
    simp at h
    simp [alook, Ne.symm h.1, ih h.2]

theorem alook_of_mem_nodup {α : Type} {k : String} {v : α} {l : List (String × α)}
    (hnd : (akeys l).Nodup) (h : (k, v) ∈ l) : alook k l = some v := by
  induction l with
  | nil => simp at h
  | cons hd t ih =>
    obtain ⟨k2, v2⟩ := hd
    rw [akeys_cons] at hnd
    have hnd2 := List.nodup_cons.mp hnd
    rcases List.mem_cons.mp h with h1 | h1
    · have hk : k2 = k := (congrArg Prod.fst h1).symm
      subst hk
      have hv : v2 = v := (congrArg Prod.snd h1).symm
      subst hv
      simp [alook]
    · have hk2 : k2 ≠ k := by
        intro he
        subst he
        exact hnd2.1 (mem_akeys_of_mem h1)
      simp [alook, hk2, ih hnd2.2 h1]

theorem aerase_sublist {α : Type} (k : String) (l : List (String × α)) :
    (aerase k l).Sublist l := by
  induction l with
  | nil => simp [aerase]
  | cons hd t ih =>
    obtain ⟨k2, v2⟩ := hd
    by_cases h2 : k2 = k
    · simp [aerase, h2]
    · simp [aerase, h2, ih]

theorem alook_sublist_some {α : Type} {k : String} {v : α} {l2 l : List (String × α)}
    (hs : l2.Sublist l) (hnd : (akeys l).Nodup) (h : alook k l2 = some v) :
    alook k l = some v :=
  alook_of_mem_nodup hnd (hs.mem (mem_of_alook h))

theorem mem_akeys_aupd {α : Type} {k k2 : String} {v : α} {l : List (String × α)}
    (h : k2 ∈ akeys (aupd k v l)) : k2 ∈ akeys l ∨ k2 = k := by
  induction l with
  | nil =>
    rw [aupd, akeys_cons] at h
    simp at h
    tauto
  | cons hd t ih =>
    obtain ⟨k3, v3⟩ := hd
    by_cases h3 : k3 = k
    · subst h3
      rw [aupd, if_pos rfl, akeys_cons] at h
      rw [akeys_cons]
      simp at h ⊢
      tauto
    · rw [aupd, if_neg h3, akeys_cons] at h
      rw [akeys_cons]
      rcases List.mem_cons.mp h with h4 | h4
      · simp [h4]
      · rcases ih h4 with h5 | h5
        · simp [h5]
        · tauto

theorem nodup_aupd {α : Type} {k : String} {v : α} {l : List (String × α)}
    (hnd : (akeys l).Nodup) : (akeys (aupd k v l)).Nodup := by
  induction l with
  | nil =>
    rw [aupd, akeys_cons]
    simp [akeys]
  | cons hd t ih =>
    obtain ⟨k3, v3⟩ := hd
    rw [akeys_cons] at hnd
    have hnd2 := List.nodup_cons.mp hnd
    by_cases h3 : k3 = k
    · subst h3
      rw [aupd, if_pos rfl, akeys_cons]
      exact List.nodup_cons.mpr hnd2
    · rw [aupd, if_neg h3, akeys_cons]
      refine List.nodup_cons.mpr ⟨?_, ih hnd2.2⟩
      intro hmem
      rcases mem_akeys_aupd hmem with h4 | h4
      · exact hnd2.1 h4
      · exact h3 h4

theorem nodup_sublist_keys {α : Type} {l2 l : List (String × α)}
    (hs : l2.Sublist l) (hnd : (akeys l).Nodup) : (akeys l2).Nodup :=
  List.Nodup.sublist (List.Sublist.map Prod.fst hs) hnd

theorem length_aupd_of_alook_none {α : Type} (v : α) {k : String}
    {l : List (String × α)} (h : alook k l = none) :
    (aupd k v l).length = l.length + 1 := by
  induction l with
  | nil => simp [aupd]
  | cons hd t ih =>
    obtain ⟨k2, v2⟩ := hd
    by_cases h2 : k2 = k
    · subst h2
      simp [alook] at h
    · simp [alook, h2] at h
      simp [aupd, h2, ih h]

/-
Session-store structural lemmas.
-/

theorem get_session_timeout (m : SessionManager) (sid : String) (now : Int) :
    ((m.get_session sid now).2).session_timeout = m.session_timeout := by
  cases h : alook sid m.sessions with
  | none => simp [SessionManager.get_session, h]
  | some s =>
    by_cases he : s.is_expired now m.session_timeout <;>
      simp [SessionManager.get_session, h, he]

theorem create_session_timeout (m : SessionManager) (sid? : Option String)
    (f : String) (now : Int) :
    ((m.create_session sid? f now).2).session_timeout = m.session_timeout := rfl

theorem get_or_create_timeout (m : SessionManager) (sid? : Option String)
    (f : String) (now : Int) :
    ((m.get_or_create_session sid? f now).2).session_timeout = m.session_timeout := by
  cases sid? with
  | none => rfl
  | some sid =>
    by_cases hs : sid = ""
    · simp [SessionManager.get_or_create_session, hs, create_session_timeout]
    · rcases hg : m.get_session sid now with ⟨r, m2⟩
      have ht : m2.session_timeout = m.session_timeout := by
        rw [show m2 = (m.get_session sid now).2 from by rw [hg]]
        exact get_session_timeout m sid now
      cases r <;> simp [SessionManager.get_or_create_session, hs, hg, ht, create_session_timeout]

theorem create_session_step (m : SessionManager) (sid? : Option String) (f : String)
    (now : Int) (sid : String) (s' : MCPSession)
    (h : alook sid ((m.create_session sid? f now).2.sessions) = some s') :
    alook sid m.sessions = some s' ∨ s'.last_accessed = now := by
  simp only [SessionManager.create_session] at h
  rw [alook_aupd] at h
  split at h
  · injection h with h
    exact Or.inr (by rw [← h])
  · exact Or.inl h

theorem get_session_step (m : SessionManager) (sid0 : String) (now : Int)
    (hnd : (akeys m.sessions).Nodup) (sid : String) (s' : MCPSession)
    (h : alook sid ((m.get_session sid0 now).2.sessions) = some s') :
    alook sid m.sessions = some s' ∨ s'.last_accessed = now := by
  cases h0 : alook sid0 m.sessions with
  | none =>
    simp [SessionManager.get_session, h0] at h
    exact Or.inl h
  | some s =>
    by_cases he : s.is_expired now m.session_timeout
    · simp [SessionManager.get_session, h0, he] at h
      exact Or.inl (alook_sublist_some (aerase_sublist sid0 m.sessions) hnd h)
    · simp [SessionManager.get_session, h0, he] at h
      rw [alook_aupd] at h
      by_cases hs : sid = sid0
      · rw [if_pos hs] at h
        injection h with h
        exact Or.inr (by rw [← h]; rfl)
      · rw [if_neg hs] at h
        exact Or.inl h

theorem create_session_nodup (m : SessionManager) (sid? : Option String) (f : String)
    (now : Int) (hnd : (akeys m.sessions).Nodup) :
    (akeys ((m.create_session sid? f now).2.sessions)).Nodup := by
  simp only [SessionManager.create_session]
  exact nodup_aupd hnd

theorem get_session_nodup (m : SessionManager) (sid0 : String) (now : Int)
    (hnd : (akeys m.sessions).Nodup) :
    (akeys ((m.get_session sid0 now).2.sessions)).Nodup := by
  cases h0 : alook sid0 m.sessions with
  | none => simpa [SessionManager.get_session, h0] using hnd
  | some s =>
    by_cases he : s.is_expired now m.session_timeout
    · simp [SessionManager.get_session, h0, he]
      exact nodup_sublist_keys (aerase_sublist sid0 m.sessions) hnd
    · simp [SessionManager.get_session, h0, he]
      exact nodup_aupd hnd

theorem get_or_create_step (m : SessionManager) (sid? : Option String) (f : String)
    (now : Int) (hnd : (akeys m.sessions).Nodup) (sid : String) (s' : MCPSession)
    (h : alook sid ((m.get_or_create_session sid? f now).2.sessions) = some s') :
    alook sid m.sessions = some s' ∨ s'.last_accessed = now := by
  cases sid? with
  | none =>
    exact create_session_step m none f now sid s' h
  | some sid0 =>
    by_cases hs : sid0 = ""
    · simp only [SessionManager.get_or_create_session, if_pos hs] at h
      exact create_session_step m (some sid0) f now sid s' h
    · rcases hg : m.get_session sid0 now with ⟨r, m2⟩
      have hm2 : m2 = (m.get_session sid0 now).2 := by rw [hg]
      cases r with
      | some s =>
        simp only [SessionManager.get_or_create_session, if_neg hs, hg] at h
        exact get_session_step m sid0 now hnd sid s' (by rw [← hm2]; exact h)
      | none =>
        simp only [SessionManager.get_or_create_session, if_neg hs, hg] at h
        rcases create_session_step m2 (some sid0) f now sid s' h with h2 | h2
        · exact get_session_step m sid0 now hnd sid s' (by rw [← hm2]; exact h2)
        · exact Or.inr h2

theorem initialize_session_step (m : SessionManager) (sid0 : String)
    (ci caps : Json) (now : Int) (hnd : (akeys m.sessions).Nodup)
    (sid : String) (s' : MCPSession)
    (h : alook sid ((m.initialize_session sid0 ci caps now).2.sessions) = some s') :
    alook sid m.sessions = some s' ∨ s'.last_accessed = now := by
  rcases hg : m.get_session sid0 now with ⟨r, m2⟩
  have hm2 : m2 = (m.get_session sid0 now).2 := by rw [hg]
  cases r with
  | none =>
    simp only [SessionManager.initialize_session, hg] at h
    exact get_session_step m sid0 now hnd sid s' (by rw [← hm2]; exact h)
  | some s =>
    simp only [SessionManager.initialize_session, hg] at h
    rw [alook_aupd] at h
    by_cases hs : sid = sid0
    · rw [if_pos hs] at h
      injection h with h
      exact Or.inr (by rw [← h])
    · rw [if_neg hs] at h
      exact get_session_step m sid0 now hnd sid s' (by rw [← hm2]; exact h)

theorem cleanup_step (m : SessionManager) (now : Int)
    (hnd : (akeys m.sessions).Nodup) (sid : String) (s' : MCPSession)
    (h : alook sid ((m.cleanup_expired_sessions now).sessions) = some s') :
    alook sid m.sessions = some s' := by
  simp only [SessionManager.cleanup_expired_sessions] at h
  exact alook_sublist_some (List.filter_sublist m.sessions) hnd h

/-- Across every session-store operation, each surviving record is either
exactly the record that was already there, or carries the clock of the
operation as its last_accessed stamp. -/
theorem storeOp_step (op : StoreOp) (m : SessionManager) (now : Int)
    (hnd : (akeys m.sessions).Nodup) (sid : String) (s' : MCPSession)
    (h : alook sid ((op.apply m now).sessions) = some s') :
    alook sid m.sessions = some s' ∨ s'.last_accessed = now := by
  cases op with
  | create sid? f => exact create_session_step m sid? f now sid s' h
  | get sid0 => exact get_session_step m sid0 now hnd sid s' h
  | getOrCreate sid? f => exact get_or_create_step m sid? f now hnd sid s' h
  | initSession sid0 ci caps => exact initialize_session_step m sid0 ci caps now hnd sid s' h
  | sweep => exact Or.inl (cleanup_step m now hnd sid s' h)
  | count => exact Or.inl h
  | isInit sid0 =>
    rcases hg : m.get_session sid0 now with ⟨r, m2⟩
    have hm2 : m2 = (m.get_session sid0 now).2 := by rw [hg]
    cases r with
    | some s =>
      simp only [StoreOp.apply, SessionManager.is_session_initialized, hg] at h
      exact get_session_step m sid0 now hnd sid s' (by rw [← hm2]; exact h)
    | none =>
      simp only [StoreOp.apply, SessionManager.is_session_initialized, hg] at h
      exact get_session_step m sid0 now hnd sid s' (by rw [← hm2]; exact h)
  | info sid0 => exact get_session_step m sid0 now hnd sid s' h

theorem get_or_create_stores (m : SessionManager) (sid f : String) (now : Int)
    (hsid : sid ≠ "") :
    alook sid ((m.get_or_create_session (some sid) f now).2.sessions)
        = some (m.get_or_create_session (some sid) f now).1
      ∧ (m.get_or_create_session (some sid) f now).1.last_accessed = now := by
  cases h0 : alook sid m.sessions with
  | none =>
    simp [SessionManager.get_or_create_session, SessionManager.get_session,
          SessionManager.create_session, hsid, h0, alook_aupd]
  | some s =>
    by_cases he : s.is_expired now m.session_timeout
    · simp [SessionManager.get_or_create_session, SessionManager.get_session,
            SessionManager.create_session, hsid, h0, he, alook_aupd]
    · simp [SessionManager.get_or_create_session, SessionManager.get_session,
            hsid, h0, he, alook_aupd, MCPSession.touch]

theorem get_or_create_last (m : SessionManager) (sid? : Option String) (f : String)
    (now : Int) :
    (m.get_or_create_session sid? f now).1.last_accessed = now := by
  cases sid? with
  | none => rfl
  | some sid =>
    by_cases hs : sid = ""
    · simp [SessionManager.get_or_create_session, hs, SessionManager.create_session]
    · cases h0 : alook sid m.sessions with
      | none =>
        simp [SessionManager.get_or_create_session, SessionManager.get_session,
              SessionManager.create_session, hs, h0]
      | some s =>
        by_cases he : s.is_expired now m.session_timeout
        · simp [SessionManager.get_or_create_session, SessionManager.get_session,
                SessionManager.create_session, hs, h0, he]
        · simp [SessionManager.get_or_create_session, SessionManager.get_session,
                hs, h0, he, MCPSession.touch]

/-- Claim C5: across every session-store operation a stored session's
last_accessed never decreases (the clock of an operation being no earlier
than the stored stamp), a successful get_session returns the record
stamped with the lookup time, and a session idle longer than the timeout
is reported as not found by get_session rather than returned stale. -/
theorem C5_last_accessed_monotone_and_lazy_expiry :
    (∀ (op : StoreOp) (m : SessionManager) (now : Int) (sid : String)
       (s s' : MCPSession),
       (akeys m.sessions).Nodup →
       alook sid m.sessions = some s → s.last_accessed ≤ now →
       alook sid ((op.apply m now).sessions) = some s' →
       s.last_accessed ≤ s'.last_accessed)
    ∧ (∀ (m : SessionManager) (sid : String) (now : Int) (s : MCPSession),
         (m.get_session sid now).1 = some s → s.last_accessed = now)
    ∧ (∀ (m : SessionManager) (sid : String) (now : Int) (s : MCPSession),
         alook sid m.sessions = some s →
         now - s.last_accessed > m.session_timeout →
         (m.get_session sid now).1 = none) := by
  refine ⟨?_, ?_, ?_⟩
  · intro op m now sid s s' hnd hs hle h
    rcases storeOp_step op m now hnd sid s' h with h2 | h2
    · rw [hs] at h2
      injection h2 with h2
      rw [h2]
    · rw [h2]
      exact hle
  · intro m sid now s h
    cases h0 : alook sid m.sessions with
    | none => simp [SessionManager.get_session, h0] at h
    | some s0 =>
      by_cases he : s0.is_expired now m.session_timeout
      · simp [SessionManager.get_session, h0, he] at h
      · have h1 : (m.get_session sid now).1 = some (s0.touch now) := by
          simp [SessionManager.get_session, h0, he]
        rw [h1] at h
        injection h with h
        rw [← h]
        rfl
  · intro m sid now s h hgt
    have he : s.is_expired now m.session_timeout = true := by
      simp only [MCPSession.is_expired, decide_eq_true_eq]
      exact hgt
    simp [SessionManager.get_session, h, he]

/-- Witness for C5: in a store holding one session last accessed at time 0
with a 3600 second timeout, a lookup at time 4000 reports not-found. -/
theorem C5_witness :
    ((SessionManager.mk
        [("s", MCPSession.mk "s" 0 0 none false (Json.obj []) (Json.obj []))]
        3600).get_session "s" 4000).1 = none :=
  C5_last_accessed_monotone_and_lazy_expiry.2.2 _ "s" 4000
    (MCPSession.mk "s" 0 0 none false (Json.obj []) (Json.obj []))
    (by decide) (by decide)

/-- Claim C6: two get_or_create_session calls on the same (nonempty) id,
the second within the timeout window of the first, return the same
session (same session_id) with non-decreasing last_accessed; and
get_or_create_session never returns an expired session. -/
theorem C6_get_or_create_idempotent (m : SessionManager) (sid f1 f2 : String)
    (t1 t2 : Int) (hsid : sid ≠ "") (ht : t1 ≤ t2)
    (hw : t2 - t1 ≤ m.session_timeout) :
    (((m.get_or_create_session (some sid) f1 t1).2.get_or_create_session
        (some sid) f2 t2).1.session_id
      = (m.get_or_create_session (some sid) f1 t1).1.session_id)
    ∧ ((m.get_or_create_session (some sid) f1 t1).1.last_accessed
      ≤ ((m.get_or_create_session (some sid) f1 t1).2.get_or_create_session
          (some sid) f2 t2).1.last_accessed)
    ∧ (∀ (m0 : SessionManager) (sid0? : Option String) (f0 : String) (now0 : Int),
        0 ≤ m0.session_timeout →
        (m0.get_or_create_session sid0? f0 now0).1.is_expired now0
          m0.session_timeout = false) := by
  obtain ⟨hstore, hlast⟩ := get_or_create_stores m sid f1 t1 hsid
  have hto : (m.get_or_create_session (some sid) f1 t1).2.session_timeout
      = m.session_timeout := get_or_create_timeout m (some sid) f1 t1
  generalize hr : m.get_or_create_session (some sid) f1 t1 = r1 at hstore hlast hto ⊢
  obtain ⟨s1, m1⟩ := r1
  dsimp only at hstore hlast hto ⊢
  have hnotexp : s1.is_expired t2 m1.session_timeout = false := by
    simp only [MCPSession.is_expired, hto, hlast, decide_eq_false_iff_not]
    omega
  have h2 : m1.get_or_create_session (some sid) f2 t2
      = (s1.touch t2, { m1 with sessions := aupd sid (s1.touch t2) m1.sessions }) := by
    simp [SessionManager.get_or_create_session, hsid,
          SessionManager.get_session, hstore, hnotexp]
  refine ⟨?_, ?_, ?_⟩
  · rw [h2]
    rfl
  · rw [h2]
    simp only [MCPSession.touch, hlast]
    exact ht
  · intro m0 sid0? f0 now0 h0
    simp only [MCPSession.is_expired, get_or_create_last, decide_eq_false_iff_not]
    omega

/-- Witness for C6 at a concrete empty store: the second call within the
window returns the session created by the first, under the same id. -/
theorem C6_witness :
    (((SessionManager.mk [] 3600).get_or_create_session (some "s") "a" 0).2.get_or_create_session
        (some "s") "b" 10).1.session_id
      = ((SessionManager.mk [] 3600).get_or_create_session (some "s") "a" 0).1.session_id :=
  (C6_get_or_create_idempotent (SessionManager.mk [] 3600) "s" "a" "b" 0 10
    (by decide) (by decide) (by decide)).1

theorem alook_append_right_none {α : Type} {k : String} {l2 : List (String × α)}
    (l1 : List (String × α)) (h : alook k l2 = none) :
    alook k (l1 ++ l2) = alook k l1 := by
  induction l1 with
  | nil => simpa [alook] using h
  | cons hd t ih =>
    obtain ⟨k2, v2⟩ := hd
    by_cases h2 : k2 = k <;> simp [alook, h2, ih]

/-- Claim C1 (amended): in the keyword-argument map built by call_tool,
the reserved session-identifier slot is always bound to the
dispatcher-supplied session id — independent of the client argument map —
while the reserved service slot is bound from the client-supplied
argument when one is present under that name. -/
theorem C1_reserved_slot_binding (params : List Param)
    (args args2 : List (String × Json)) (sid : Option String) :
    (∀ v, ("mcp_session_id", v) ∈ build_call_args params args sid →
        v = sessionJson sid)
    ∧ alook "mcp_session_id" (build_call_args params args sid)
        = alook "mcp_session_id" (build_call_args params args2 sid)
    ∧ (∀ p v, p ∈ params → p.name = "service" → alook "service" args = some v →
        ("service", v) ∈ build_call_args params args sid) := by
  refine ⟨?_, ?_, ?_⟩
  · induction params with
    | nil =>
      intro v h
      simp [build_call_args] at h
    | cons p rest ih =>
      intro v h
      simp only [build_call_args] at h
      by_cases hp : p.name = "mcp_session_id"
      · rw [if_pos hp] at h
        rcases List.mem_cons.mp h with h1 | h1
        · exact congrArg Prod.snd h1
        · exact ih v h1
      · rw [if_neg hp] at h
        cases ha : alook p.name args with
        | some w =>
          rw [ha] at h
          rcases List.mem_cons.mp h with h1 | h1
          · exact absurd (congrArg Prod.fst h1).symm hp
          · exact ih v h1
        | none =>
          rw [ha] at h
          cases hd : p.default with
          | some d =>
            rw [hd] at h
            rcases List.mem_cons.mp h with h1 | h1
            · exact absurd (congrArg Prod.fst h1).symm hp
            · exact ih v h1
          | none =>
            rw [hd] at h
            exact ih v h
  · induction params with
    | nil => rfl
    | cons p rest ih =>
      simp only [build_call_args]
      by_cases hp : p.name = "mcp_session_id"
      · simp [hp, alook]
      · cases ha : alook p.name args with
        | some w =>
          cases ha2 : alook p.name args2 with
          | some w2 => simp [hp, alook, ih]
          | none =>
            cases hd : p.default with
            | some d => simp [hp, alook, ih]
            | none => simp [hp, alook, ih]
        | none =>
          cases ha2 : alook p.name args2 with
          | some w2 =>
            cases hd : p.default with
            | some d => simp [hp, alook, ih]
            | none => simp [hp, alook, ih]
          | none =>
            cases hd : p.default with
            | some d => simp [hp, alook, ih]
            | none => simp [hp, alook, ih]
  · induction params with
    | nil =>
      intro p v hmem
      simp at hmem
    | cons p0 rest ih =>
      intro p v hmem hserv hin
      simp only [build_call_args]
      rcases List.mem_cons.mp hmem with h1 | h1
      · subst h1
        have hmcp : p.name ≠ "mcp_session_id" := by
          rw [hserv]
          decide
        rw [if_neg hmcp]
        rw [hserv]
        rw [hin]
        exact List.mem_cons_self _ _
      · have hr := ih p v h1 hserv hin
        by_cases hp : p0.name = "mcp_session_id"
        · rw [if_pos hp]
          exact List.mem_cons_of_mem _ hr
        · rw [if_neg hp]
          cases ha : alook p0.name args with
          | some w => exact List.mem_cons_of_mem _ hr
          | none =>
            cases hd : p0.default with
            | some d => exact List.mem_cons_of_mem _ hr
            | none => exact hr

/-- Counterexample to claim C1 as stated: two tools/call argument maps
differing only in the client-supplied entry under the reserved service
name bind different values to the service slot. -/
theorem C1_counterexample :
    alook "service" (build_call_args [Param.mk "service" none none]
        [("service", Json.str "A")] (some "sid")) = some (Json.str "A")
    ∧ alook "service" (build_call_args [Param.mk "service" none none]
        [("service", Json.str "B")] (some "sid")) = some (Json.str "B")
    ∧ Json.str "A" ≠ Json.str "B" := by decide

/-- Witness for C1: a client-supplied entry under the session-identifier
name has no effect on the bound session id. -/
theorem C1_witness :
    alook "mcp_session_id" (build_call_args [Param.mk "mcp_session_id" none none]
        [("mcp_session_id", Json.str "spoof")] (some "real"))
      = alook "mcp_session_id" (build_call_args [Param.mk "mcp_session_id" none none]
        [] (some "real")) :=
  (C1_reserved_slot_binding [Param.mk "mcp_session_id" none none]
    [("mcp_session_id", Json.str "spoof")] [] (some "real")).2.1

/-- Claim C10: the keyword-argument map passed to a callable binds only
declared parameter names, and entries of the client argument map under
undeclared names are dropped without affecting the call. -/
theorem C10_extra_arguments_dropped (params : List Param)
    (args extra : List (String × Json)) (sid : Option String) :
    (∀ k v, (k, v) ∈ build_call_args params args sid →
        k ∈ params.map Param.name)
    ∧ ((∀ kv, kv ∈ extra → kv.1 ∉ params.map Param.name) →
        build_call_args params (args ++ extra) sid
          = build_call_args params args sid) := by
  constructor
  · induction params with
    | nil =>
      intro k v h
      simp [build_call_args] at h
    | cons p rest ih =>
      intro k v h
      simp only [build_call_args] at h
      by_cases hp : p.name = "mcp_session_id"
      · rw [if_pos hp] at h
        rcases List.mem_cons.mp h with h1 | h1
        · injection h1 with hk hv
          rw [hk, List.map_cons]
          exact List.mem_cons_self _ _
        · rw [List.map_cons]
          exact List.mem_cons_of_mem _ (ih k v h1)
      · rw [if_neg hp] at h
        cases ha : alook p.name args with
        | some w =>
          rw [ha] at h
          rcases List.mem_cons.mp h with h1 | h1
          · injection h1 with hk hv
            rw [hk, List.map_cons]
            exact List.mem_cons_self _ _
          · rw [List.map_cons]
            exact List.mem_cons_of_mem _ (ih k v h1)
        | none =>
          rw [ha] at h
          cases hd : p.default with
          | some d =>
            rw [hd] at h
            rcases List.mem_cons.mp h with h1 | h1
            · injection h1 with hk hv
              rw [hk, List.map_cons]
              exact List.mem_cons_self _ _
            · rw [List.map_cons]
              exact List.mem_cons_of_mem _ (ih k v h1)
          | none =>
            rw [hd] at h
            rw [List.map_cons]
            exact List.mem_cons_of_mem _ (ih k v h)
  · induction params with
    | nil =>
      intro _
      rfl
    | cons p rest ih =>
      intro hext
      have hext2 : ∀ kv, kv ∈ extra → kv.1 ∉ rest.map Param.name := by
        intro kv hkv hmem
        exact hext kv hkv (by rw [List.map_cons]; exact List.mem_cons_of_mem _ hmem)
      have hnone : alook p.name extra = none := by
        apply alook_none_of_not_mem
        intro hmem
        rcases List.mem_map.mp hmem with ⟨kv, hkv, hfst⟩
        exact hext kv hkv (by rw [hfst, List.map_cons]; exact List.mem_cons_self _ _)
      have ihr := ih hext2
      simp only [build_call_args]
      rw [alook_append_right_none args hnone, ihr]

/-- Witness for C10: an extra argument under an undeclared name leaves
the bound keyword-argument map unchanged. -/
theorem C10_witness :
    build_call_args [Param.mk "a" (some PyAnn.pyStr) none]
        ([("a", Json.str "x")] ++ [("zzz", Json.num 1)]) (some "s")
      = build_call_args [Param.mk "a" (some PyAnn.pyStr) none]
        [("a", Json.str "x")] (some "s") :=
  (C10_extra_arguments_dropped [Param.mk "a" (some PyAnn.pyStr) none]
    [("a", Json.str "x")] [("zzz", Json.num 1)] (some "s")).2 (by decide)

theorem paramType_cases (o : Option PyAnn) :
    paramType o = "string" ∨ paramType o = "integer" ∨ paramType o = "boolean"
      ∨ paramType o = "array" := by
  cases o with
  | none => exact Or.inl rfl
  | some a =>
    cases a with
    | pyStr => exact Or.inl rfl
    | pyInt => exact Or.inr (Or.inl rfl)
    | pyBool => exact Or.inr (Or.inr (Or.inl rfl))
    | pyList => exact Or.inr (Or.inr (Or.inr rfl))
    | other r =>
      by_cases hr : r.startsWith "List"
      · exact Or.inr (Or.inr (Or.inr (by simp [paramType, hr])))
      · exact Or.inl (by simp [paramType, hr])

theorem inferSchema_props_mem : ∀ (params : List Param) (k : String) (pinfo : ParamInfo),
    (k, pinfo) ∈ (inferSchema params).1 →
      k ∈ params.map Param.name ∧ k ≠ "service" ∧ k ≠ "mcp_session_id"
        ∧ pinfo.default = none
        ∧ (pinfo.type = "string" ∨ pinfo.type = "integer" ∨ pinfo.type = "boolean"
            ∨ pinfo.type = "array") := by
  intro params
  induction params with
  | nil =>
    intro k pinfo h
    simp [inferSchema] at h
  | cons p rest ih =>
    intro k pinfo h
    simp only [inferSchema] at h
    by_cases hres : p.name = "service" ∨ p.name = "mcp_session_id"
    · rw [if_pos hres] at h
      obtain ⟨h1, h2⟩ := ih k pinfo h
      exact ⟨by rw [List.map_cons]; exact List.mem_cons_of_mem _ h1, h2⟩
    · rw [if_neg hres] at h
      rcases List.mem_cons.mp h with h1 | h1
      · injection h1 with hk hv
        subst hk
        subst hv
        push_neg at hres
        exact ⟨by rw [List.map_cons]; exact List.mem_cons_self _ _, hres.1, hres.2,
               rfl, paramType_cases p.annot⟩
      · obtain ⟨h2, h3⟩ := ih k pinfo h1
        exact ⟨by rw [List.map_cons]; exact List.mem_cons_of_mem _ h2, h3⟩

theorem inferSchema_req_names : ∀ (params : List Param) (x : String),
    x ∈ (inferSchema params).2 → x ∈ params.map Param.name := by
  intro params
  induction params with
  | nil =>
    intro x h
    simp [inferSchema] at h
  | cons p rest ih =>
    intro x h
    simp only [inferSchema] at h
    by_cases hres : p.name = "service" ∨ p.name = "mcp_session_id"
    · rw [if_pos hres] at h
      rw [List.map_cons]
      exact List.mem_cons_of_mem _ (ih x h)
    · rw [if_neg hres] at h
      by_cases hd : p.default.isNone
      · simp only [hd, if_true] at h
        rcases List.mem_cons.mp h with h1 | h1
        · rw [h1, List.map_cons]
          exact List.mem_cons_self _ _
        · rw [List.map_cons]
          exact List.mem_cons_of_mem _ (ih x h1)
      · simp only [hd, if_false] at h
        rw [List.map_cons]
        exact List.mem_cons_of_mem _ (ih x h)

theorem alook_cons_ne {α : Type} {k2 k : String} {v : α} {l : List (String × α)}
    (h : k2 ≠ k) : alook k ((k2, v) :: l) = alook k l := by
  simp [alook, h]

theorem inferSchema_lookup (params : List Param)
    (hnd : (params.map Param.name).Nodup) :
    ∀ p, p ∈ params → p.name ≠ "service" → p.name ≠ "mcp_session_id" →
      alook p.name ((inferSchema params).1)
          = some (ParamInfo.mk (paramType p.annot)
              (some ("Parameter: " ++ p.name)) none)
        ∧ (p.name ∈ (inferSchema params).2 ↔ p.default = none) := by
  induction params with
  | nil =>
    intro p h
    simp at h
  | cons p0 rest ih =>
    intro p hp hps hpm
    rw [List.map_cons] at hnd
    have hnd2 := List.nodup_cons.mp hnd
    simp only [inferSchema]
    rcases List.mem_cons.mp hp with h1 | h1
    · subst h1
      have hres : ¬(p.name = "service" ∨ p.name = "mcp_session_id") := by
        simp [hps, hpm]
      rw [if_neg hres]
      dsimp only
      constructor
      · simp [alook]
      · cases hd : p.default with
        | none => simp [hd]
        | some d =>
          simp [hd]
          intro hmem
          exact hnd2.1 (inferSchema_req_names rest _ hmem)
    · have hr := ih hnd2.2 p h1 hps hpm
      have hne : p0.name ≠ p.name := by
        intro he
        exact hnd2.1 (by rw [he]; exact List.mem_map_of_mem Param.name h1)
      by_cases hres : p0.name = "service" ∨ p0.name = "mcp_session_id"
      · rw [if_pos hres]
        exact hr
      · rw [if_neg hres]
        dsimp only
        constructor
        · rw [alook_cons_ne hne]
          exact hr.1
        · by_cases hd : p0.default.isNone = true
          · simp [hd, Ne.symm hne]
            exact hr.2
          · simp [hd]
            exact hr.2

theorem handlersInferSchema_lookup (params : List Param)
    (hnd : (params.map Param.name).Nodup) :
    ∀ p, p ∈ params → p.name ≠ "service" →
      alook p.name ((handlersInferSchema params).1)
        = some (ParamInfo.mk (paramType p.annot) none p.default) := by
  induction params with
  | nil =>
    intro p h
    simp at h
  | cons p0 rest ih =>
    intro p hp hps
    rw [List.map_cons] at hnd
    have hnd2 := List.nodup_cons.mp hnd
    simp only [handlersInferSchema]
    rcases List.mem_cons.mp hp with h1 | h1
    · subst h1
      rw [if_neg hps]
      cases hd : p.default with
      | none =>
        dsimp only
        simp [alook]
      | some d =>
        dsimp only
        simp [alook]
    · have hr := ih hnd2.2 p h1 hps
      have hne : p0.name ≠ p.name := by
        intro he
        exact hnd2.1 (by rw [he]; exact List.mem_map_of_mem Param.name h1)
      by_cases hres : p0.name = "service"
      · rw [if_pos hres]
        exact hr
      · rw [if_neg hres]
        cases hd : p0.default with
        | none =>
          dsimp only
          rw [alook_cons_ne hne]
          exact hr
        | some d =>
          dsimp only
          rw [alook_cons_ne hne]
          exact hr

/-- Claim C7 (amended): the schema inference behind the tools/list method
of the dispatcher skips both reserved injected parameter names, maps every
annotation into the four-element JSON type family with unrecognized or
absent annotations defaulting to string, and marks a parameter required
exactly when it has no default; the round-trip example of the claim holds.
The auxiliary handlers' inference skips only the service name (see the
counterexample). -/
theorem C7_schema_inference (params : List Param)
    (hnd : (params.map Param.name).Nodup) :
    (alook "service" ((inferSchema params).1) = none
      ∧ alook "mcp_session_id" ((inferSchema params).1) = none)
    ∧ (∀ p, p ∈ params → p.name ≠ "service" → p.name ≠ "mcp_session_id" →
        alook p.name ((inferSchema params).1)
            = some (ParamInfo.mk (paramType p.annot)
                (some ("Parameter: " ++ p.name)) none)
          ∧ (p.name ∈ (inferSchema params).2 ↔ p.default = none))
    ∧ (∀ k pinfo, (k, pinfo) ∈ (inferSchema params).1 →
        pinfo.type = "string" ∨ pinfo.type = "integer" ∨ pinfo.type = "boolean"
          ∨ pinfo.type = "array")
    ∧ ((inferSchema [Param.mk "a" (some PyAnn.pyStr) none,
          Param.mk "b" (some PyAnn.pyInt) (some (Json.num 5))]).2 = ["a"]
        ∧ alook "b" ((inferSchema [Param.mk "a" (some PyAnn.pyStr) none,
            Param.mk "b" (some PyAnn.pyInt) (some (Json.num 5))]).1)
          = some (ParamInfo.mk "integer" (some "Parameter: b") none)) := by
  refine ⟨⟨?_, ?_⟩, inferSchema_lookup params hnd, ?_, by decide, by decide⟩
  · apply alook_none_of_not_mem
    intro hmem
    simp only [akeys] at hmem
    rcases List.mem_map.mp hmem with ⟨kv, hkv, hfst⟩
    exact (inferSchema_props_mem params kv.1 kv.2 hkv).2.1 hfst
  · apply alook_none_of_not_mem
    intro hmem
    simp only [akeys] at hmem
    rcases List.mem_map.mp hmem with ⟨kv, hkv, hfst⟩
    exact (inferSchema_props_mem params kv.1 kv.2 hkv).2.2.1 hfst
  · intro k pinfo h
    exact (inferSchema_props_mem params k pinfo h).2.2.2.2

/-- Counterexample to claim C7 as stated: the schema inference of
core/mcp_handlers.py skips only the service name, so a declared
mcp_session_id parameter appears in the schema it infers. -/
theorem C7_counterexample :
    alook "mcp_session_id"
        ((handlersInferSchema [Param.mk "service" none none,
            Param.mk "mcp_session_id" none (some Json.null),
            Param.mk "a" (some PyAnn.pyStr) none]).1)
      = some (ParamInfo.mk "string" none (some Json.null)) := by decide

/-- Witness for C7: the round-trip example, derived from the theorem. -/
theorem C7_witness :
    alook "b" ((inferSchema [Param.mk "a" (some PyAnn.pyStr) none,
        Param.mk "b" (some PyAnn.pyInt) (some (Json.num 5))]).1)
      = some (ParamInfo.mk "integer" (some "Parameter: b") none) :=
  ((C7_schema_inference [Param.mk "a" (some PyAnn.pyStr) none,
      Param.mk "b" (some PyAnn.pyInt) (some (Json.num 5))] (by decide)).2.1
    (Param.mk "b" (some PyAnn.pyInt) (some (Json.num 5)))
    (by decide) (by decide) (by decide)).1

/-- Claim C8 (amended): a declared default value is surfaced by the schema
inference of core/mcp_handlers.py for every non-service parameter with a
default, while the schema served by the dispatcher for the tools/list
method omits default values entirely. -/
theorem C8_default_surfacing (params : List Param)
    (hnd : (params.map Param.name).Nodup) :
    (∀ p d, p ∈ params → p.name ≠ "service" → p.default = some d →
        alook p.name ((handlersInferSchema params).1)
          = some (ParamInfo.mk (paramType p.annot) none (some d)))
    ∧ (∀ k pinfo, (k, pinfo) ∈ (inferSchema params).1 → pinfo.default = none) := by
  constructor
  · intro p d hp hps hd
    have h2 := handlersInferSchema_lookup params hnd p hp hps
    rw [hd] at h2
    exact h2
  · intro k pinfo h
    exact (inferSchema_props_mem params k pinfo h).2.2.2.1

/-- Counterexample to claim C8 as stated: a parameter with declared
default 5 gets a tools/list schema entry carrying no default at all. -/
theorem C8_counterexample :
    alook "b" ((inferSchema [Param.mk "b" (some PyAnn.pyInt) (some (Json.num 5))]).1)
      = some (ParamInfo.mk "integer" (some "Parameter: b") none)
    ∧ (Param.mk "b" (some PyAnn.pyInt) (some (Json.num 5))).default
      = some (Json.num 5) := by decide

/-- Witness for C8: the handlers' schema for the same parameter does carry
the default. -/
theorem C8_witness :
    alook "b" ((handlersInferSchema [Param.mk "b" (some PyAnn.pyInt) (some (Json.num 5))]).1)
      = some (ParamInfo.mk "integer" none (some (Json.num 5))) :=
  (C8_default_surfacing [Param.mk "b" (some PyAnn.pyInt) (some (Json.num 5))]
    (by decide)).1
    (Param.mk "b" (some PyAnn.pyInt) (some (Json.num 5))) (Json.num 5)
    (by decide) (by decide) rfl

/-- Claim C2, evaluated at the failing input: a registered tool whose
callable raises ValueError during its own execution is routed through the
not-found handler of tools/call, so the response carries error.code
-32601 with HTTP status 404 — where the claim (and the spec) require
-32603 with HTTP status 500, reserving -32601 for an unresolved name.  A
tool raising any other exception is routed to -32603 with HTTP 500. -/
theorem C2_value_error_conflated_with_not_found :
    (((handle_mcp_request
        [("t", Tool.mk [] none (fun _ => PyResult.valueError "boom"))]
        (SessionManager.mk [] 3600)
        (HttpRequest.mk (some "s") (ReqBody.json (Json.obj
          [("jsonrpc", Json.str "2.0"), ("id", Json.num 1),
           ("method", Json.str "tools/call"),
           ("params", Json.obj [("name", Json.str "t"),
                                ("arguments", Json.obj [])])])))
        "f" 0 0).1.status = 404)
      ∧ jget (jget ((handle_mcp_request
          [("t", Tool.mk [] none (fun _ => PyResult.valueError "boom"))]
          (SessionManager.mk [] 3600)
          (HttpRequest.mk (some "s") (ReqBody.json (Json.obj
            [("jsonrpc", Json.str "2.0"), ("id", Json.num 1),
             ("method", Json.str "tools/call"),
             ("params", Json.obj [("name", Json.str "t"),
                                  ("arguments", Json.obj [])])])))
          "f" 0 0).1.body) "error") "code" = Json.num (-32601))
    ∧ (((handle_mcp_request
        [("t", Tool.mk [] none (fun _ => PyResult.exc "boom"))]
        (SessionManager.mk [] 3600)
        (HttpRequest.mk (some "s") (ReqBody.json (Json.obj
          [("jsonrpc", Json.str "2.0"), ("id", Json.num 1),
           ("method", Json.str "tools/call"),
           ("params", Json.obj [("name", Json.str "t"),
                                ("arguments", Json.obj [])])])))
        "f" 0 0).1.status = 500)
      ∧ jget (jget ((handle_mcp_request
          [("t", Tool.mk [] none (fun _ => PyResult.exc "boom"))]
          (SessionManager.mk [] 3600)
          (HttpRequest.mk (some "s") (ReqBody.json (Json.obj
            [("jsonrpc", Json.str "2.0"), ("id", Json.num 1),
             ("method", Json.str "tools/call"),
             ("params", Json.obj [("name", Json.str "t"),
                                  ("arguments", Json.obj [])])])))
          "f" 0 0).1.body) "error") "code" = Json.num (-32603)) := by decide

/-- Claim C3, evaluated at the failing input: a well-formed JSON body that
is not an object makes the source raise AttributeError while building the
-32600 envelope, so the top-level handler responds -32603 with HTTP
status 500 — where the claim requires -32600 with HTTP status 400.  The
two object-shaped cases of the claim (jsonrpc not the literal 2.0;
missing method) do behave as claimed. -/
theorem C3_invalid_request_envelope :
    (((handle_mcp_request [] (SessionManager.mk [] 3600)
        (HttpRequest.mk (some "s")
          (ReqBody.json (Json.arr [Json.num 1, Json.num 2, Json.num 3])))
        "f" 0 0).1.status = 500)
      ∧ jget (jget ((handle_mcp_request [] (SessionManager.mk [] 3600)
          (HttpRequest.mk (some "s")
            (ReqBody.json (Json.arr [Json.num 1, Json.num 2, Json.num 3])))
          "f" 0 0).1.body) "error") "code" = Json.num (-32603))
    ∧ (((handle_mcp_request [] (SessionManager.mk [] 3600)
        (HttpRequest.mk (some "s") (ReqBody.json (Json.obj
          [("jsonrpc", Json.str "1.0"), ("id", Json.num 1),
           ("method", Json.str "tools/list")])))
        "f" 0 0).1.status = 400)
      ∧ jget (jget ((handle_mcp_request [] (SessionManager.mk [] 3600)
          (HttpRequest.mk (some "s") (ReqBody.json (Json.obj
            [("jsonrpc", Json.str "1.0"), ("id", Json.num 1),
             ("method", Json.str "tools/list")])))
          "f" 0 0).1.body) "error") "code" = Json.num (-32600))
    ∧ (((handle_mcp_request [] (SessionManager.mk [] 3600)
        (HttpRequest.mk (some "s") (ReqBody.json (Json.obj
          [("jsonrpc", Json.str "2.0"), ("id", Json.num 1)])))
        "f" 0 0).1.status = 400)
      ∧ jget (jget ((handle_mcp_request [] (SessionManager.mk [] 3600)
          (HttpRequest.mk (some "s") (ReqBody.json (Json.obj
            [("jsonrpc", Json.str "2.0"), ("id", Json.num 1)])))
          "f" 0 0).1.body) "error") "code" = Json.num (-32600)) := by decide

/-- Claim C4 (amended): initialize_session returns false exactly when the
session is absent or expired, and otherwise stores the payloads, marks
the session initialized, stamps it and returns true; but the dispatcher
discards this boolean and responds to initialize with a success envelope
and HTTP status 200 regardless. -/
theorem C4_initialize_contract :
    (∀ (m : SessionManager) (sid : String) (ci caps : Json) (now : Int),
        ((m.initialize_session sid ci caps now).1 = false ↔
          (alook sid m.sessions = none ∨
            ∃ s, alook sid m.sessions = some s ∧
              s.is_expired now m.session_timeout = true)))
    ∧ (∀ (m : SessionManager) (sid : String) (ci caps : Json) (now : Int),
        (m.initialize_session sid ci caps now).1 = true →
        ∃ s2, alook sid ((m.initialize_session sid ci caps now).2.sessions) = some s2
          ∧ s2.initialized = true ∧ s2.client_info = ci ∧ s2.capabilities = caps
          ∧ s2.last_accessed = now)
    ∧ (∀ (registry : List (String × Tool)) (m : SessionManager) (h : String)
        (idj : Json) (pkvs : List (String × Json)) (freshId : String) (t1 t2 : Int),
        h ≠ "" →
        ((handle_mcp_request registry m
            (HttpRequest.mk (some h) (ReqBody.json (Json.obj
              [("jsonrpc", Json.str "2.0"), ("id", idj),
               ("method", Json.str "initialize"), ("params", Json.obj pkvs)])))
            freshId t1 t2).1.status = 200
          ∧ hasKey ((handle_mcp_request registry m
              (HttpRequest.mk (some h) (ReqBody.json (Json.obj
                [("jsonrpc", Json.str "2.0"), ("id", idj),
                 ("method", Json.str "initialize"), ("params", Json.obj pkvs)])))
              freshId t1 t2).1.body) "error" = false
          ∧ hasKey ((handle_mcp_request registry m
              (HttpRequest.mk (some h) (ReqBody.json (Json.obj
                [("jsonrpc", Json.str "2.0"), ("id", idj),
                 ("method", Json.str "initialize"), ("params", Json.obj pkvs)])))
              freshId t1 t2).1.body) "result" = true)) := by
  refine ⟨?_, ?_, ?_⟩
  · intro m sid ci caps now
    cases h0 : alook sid m.sessions with
    | none =>
      simp [SessionManager.initialize_session, SessionManager.get_session, h0]
    | some s =>
      by_cases he : s.is_expired now m.session_timeout = true
      · simp [SessionManager.initialize_session, SessionManager.get_session, h0, he]
      · simp [SessionManager.initialize_session, SessionManager.get_session, h0, he]
  · intro m sid ci caps now h
    cases h0 : alook sid m.sessions with
    | none =>
      simp [SessionManager.initialize_session, SessionManager.get_session, h0] at h
    | some s =>
      by_cases he : s.is_expired now m.session_timeout = true
      · simp [SessionManager.initialize_session, SessionManager.get_session, h0, he] at h
      · refine ⟨MCPSession.mk s.session_id s.created_at now s.user_email true ci caps,
                ?_, rfl, rfl, rfl, rfl⟩
        simp [SessionManager.initialize_session, SessionManager.get_session,
              h0, he, alook_aupd, MCPSession.touch]
  · intro registry m h idj pkvs freshId t1 t2 hne
    refine ⟨?_, ?_, ?_⟩ <;>
      simp [handle_mcp_request, hne, jget, jgetD, alook, jsonTruthy,
            create_mcp_response, hasKey, initializeResult]

/-- Counterexample to claim C4 as stated: with session s created at time 0
and the clock at 4000 when initialize_session runs, initialization fails
with false inside the dispatcher, yet the client receives a success
envelope with HTTP status 200 and no error member. -/
theorem C4_counterexample :
    ((((SessionManager.mk [] 3600).get_or_create_session (some "s") "f" 0).2.initialize_session
        "s" (Json.obj []) (Json.obj []) 4000).1 = false)
    ∧ ((handle_mcp_request [] (SessionManager.mk [] 3600)
          (HttpRequest.mk (some "s") (ReqBody.json (Json.obj
            [("jsonrpc", Json.str "2.0"), ("id", Json.num 1),
             ("method", Json.str "initialize")])))
          "f" 0 4000).1.status = 200)
    ∧ hasKey ((handle_mcp_request [] (SessionManager.mk [] 3600)
          (HttpRequest.mk (some "s") (ReqBody.json (Json.obj
            [("jsonrpc", Json.str "2.0"), ("id", Json.num 1),
             ("method", Json.str "initialize")])))
          "f" 0 4000).1.body) "error" = false
    ∧ hasKey ((handle_mcp_request [] (SessionManager.mk [] 3600)
          (HttpRequest.mk (some "s") (ReqBody.json (Json.obj
            [("jsonrpc", Json.str "2.0"), ("id", Json.num 1),
             ("method", Json.str "initialize")])))
          "f" 0 4000).1.body) "result" = true := by decide

/-- Witness for C4: an initialize request through the dispatcher yields
HTTP status 200. -/
theorem C4_witness :
    (handle_mcp_request [] (SessionManager.mk [] 3600)
        (HttpRequest.mk (some "x") (ReqBody.json (Json.obj
          [("jsonrpc", Json.str "2.0"), ("id", Json.num 7),
           ("method", Json.str "initialize"), ("params", Json.obj [])])))
        "f" 0 0).1.status = 200 :=
  (C4_initialize_contract.2.2 [] (SessionManager.mk [] 3600) "x" (Json.num 7)
    [] "f" 0 0 (by decide)).1

/-- Claim C9 (amended): a tools/list, resources/list or prompts/list
request carrying a nonempty session header leaves the session store
unchanged, and its response does not depend on the store, the generated
id or the clock, so repeated identical requests return the same result; a
request carrying no session header creates exactly one new session during
transport extraction before the method is dispatched. -/
theorem C9_list_requests_frame (registry : List (String × Tool))
    (m : SessionManager) (hdr : String) (idj pj : Json) (mstr : String)
    (f f2 : String) (t1 t2 t3 t4 : Int) (hh : hdr ≠ "")
    (hm : mstr = "tools/list" ∨ mstr = "resources/list" ∨ mstr = "prompts/list") :
    ((handle_mcp_request registry m (HttpRequest.mk (some hdr) (ReqBody.json
        (Json.obj [("jsonrpc", Json.str "2.0"), ("id", idj),
                   ("method", Json.str mstr), ("params", pj)])))
        f t1 t2).2 = m)
    ∧ ((handle_mcp_request registry m (HttpRequest.mk (some hdr) (ReqBody.json
        (Json.obj [("jsonrpc", Json.str "2.0"), ("id", idj),
                   ("method", Json.str mstr), ("params", pj)])))
        f t1 t2).1
      = (handle_mcp_request registry m (HttpRequest.mk (some hdr) (ReqBody.json
        (Json.obj [("jsonrpc", Json.str "2.0"), ("id", idj),
                   ("method", Json.str mstr), ("params", pj)])))
        f2 t3 t4).1)
    ∧ (∀ (m0 : SessionManager) (f0 : String) (t5 t6 : Int),
        alook f0 m0.sessions = none →
        ((handle_mcp_request registry m0 (HttpRequest.mk none (ReqBody.json
          (Json.obj [("jsonrpc", Json.str "2.0"), ("id", idj),
                     ("method", Json.str mstr), ("params", pj)])))
          f0 t5 t6).2.get_session_count = m0.get_session_count + 1)) := by
  rcases hm with hm | hm | hm <;> subst hm <;>
    refine ⟨by simp [handle_mcp_request, hh, jget, jgetD, alook, jsonTruthy],
            by simp [handle_mcp_request, hh, jget, jgetD, alook, jsonTruthy], ?_⟩ <;>
    · intro m0 f0 t5 t6 hf
      simp [handle_mcp_request, jget, jgetD, alook, jsonTruthy,
            SessionManager.get_or_create_session, SessionManager.create_session,
            SessionManager.get_session_count]
      exact length_aupd_of_alook_none _ hf

/-- Counterexample to claim C9 as stated: a tools/list request carrying no
session header grows the session store from zero sessions to one. -/
theorem C9_counterexample :
    (SessionManager.mk [] 3600).get_session_count = 0
    ∧ ((handle_mcp_request [] (SessionManager.mk [] 3600)
        (HttpRequest.mk none (ReqBody.json (Json.obj
          [("jsonrpc", Json.str "2.0"), ("id", Json.num 1),
           ("method", Json.str "tools/list")])))
        "fresh" 0 0).2.get_session_count = 1) := by decide

/-- Witness for C9: a tools/list request with a session header leaves the
store exactly as it was. -/
theorem C9_witness :
    (handle_mcp_request [] (SessionManager.mk [] 3600)
        (HttpRequest.mk (some "x") (ReqBody.json (Json.obj
          [("jsonrpc", Json.str "2.0"), ("id", Json.num 1),
           ("method", Json.str "tools/list"), ("params", Json.obj [])])))
        "f" 0 0).2 = SessionManager.mk [] 3600 :=
  (C9_list_requests_frame [] (SessionManager.mk [] 3600) "x" (Json.num 1)
    (Json.obj []) "tools/list" "f" "g" 0 0 1 2 (by decide) (Or.inl rfl)).1
